import Mathlib

/-!
# Verification of the Mix-plug-ins parameter/MIDI/sidechain core

Shallow embedding of the session-state handlers of `src/App.tsx` and of the
MixxVerb visualizer bridge of `src/src/components/plugins/MixxVerb.tsx`.

JavaScript numbers are modelled as rationals, JS objects holding plugin
settings as total functions from field names to values (object spread
becoming override of a partial map), and the React `useState` cells as
fields of an explicit `AppState` record; each `handleX` callback becomes a
pure state-transformer.  `Math.random()` draws are modelled by an explicit
stream of rationals, and `setTimeout` scheduling by an explicit list of
pending scheduled callbacks carried in the bridge state.
-/

namespace MixPlugins

/-- A settings field value: plugin settings hold numbers (knobs) and
booleans (the `sidechainActive` flag). -/
inductive Value where
  | num (q : ℚ)
  | bool (b : Bool)
deriving DecidableEq

/-- A plugin's settings object: total map from field name to value
(each plugin kind's schema supplies every field a value). -/
abbrev Settings := String → Value

/-- A partial settings object, as passed to the parameter store update:
`none` for absent fields. -/
abbrev PartialSettings := String → Option Value

/-- JS object spread `{...s, ...p}`: fields of `p` win over fields of `s`. -/
def mergeSettings (s : Settings) (p : PartialSettings) : Settings :=
  fun k => (p k).getD (s k)

/-- The `newState` argument of `handlePluginStateChange` in `src/App.tsx`:
either a literal partial-settings object or an updater function of the
previous settings. -/
inductive SettingsUpdate where
  | lit (p : PartialSettings)
  | updater (f : Settings → PartialSettings)

/-- Evaluate the `newState` argument against the current plugin settings,
as `handlePluginStateChange` does (`typeof newState === 'function'`). -/
def evalUpdate (u : SettingsUpdate) (prev : Settings) : PartialSettings :=
  match u with
  | .lit p => p
  | .updater f => f prev

/-- A recorded MIDI mapping value, `src/App.tsx` `handleMidiMessage`:
`{ pluginKey, paramName, min, max }`. -/
structure MidiMapping (K : Type) where
  pluginKey : K
  paramName : String
  min : ℚ
  max : ℚ
deriving DecidableEq

/-- The armed MIDI-learn target, `src/App.tsx` `midiLearnTarget` state:
`{ pluginKey, paramName, min, max } | null`. -/
structure LearnTarget (K : Type) where
  pluginKey : K
  paramName : String
  min : ℚ
  max : ℚ
deriving DecidableEq

/-- A sidechain link, `src/types` `SidechainLink`: a directed edge.
The source field is named `from` in TypeScript; `from` is reserved in
Lean, so the fields are `fromKey`/`toKey`. -/
structure SidechainLink (K : Type) where
  fromKey : K
  toKey : K
deriving DecidableEq

/-- The session state of `src/App.tsx` relevant to the parameter store,
MIDI layer, sidechain routing and presets: the `useState` cells
`pluginStates`, `midiMappings`, `midiLearnTarget`, `sidechainLinks`, and
the preset list from `usePresets`.  `K` is the type of plugin keys
(`PluginKey`, an enum of fixed plugin kinds per the spec). -/
structure AppState (K : Type) where
  pluginStates : K → Settings
  midiMappings : String → Option (MidiMapping K)
  midiLearnTarget : Option (LearnTarget K)
  sidechainLinks : List (SidechainLink K)
  presets : List (String × (K → Settings))

/-- Embedding of `handlePluginStateChange`, `src/App.tsx` lines 77-99: evaluates the
partial-or-updater argument against the plugin's current settings, shallow
merges it into them, and produces a new settings mapping differing only at
`pluginId`. -/
def handlePluginStateChange {K : Type} [DecidableEq K]
    (st : AppState K) (pluginId : K) (newState : SettingsUpdate) : AppState K :=
  let currentPluginState := st.pluginStates pluginId
  let updatedPartialState := evalUpdate newState currentPluginState
  { st with pluginStates := fun k =>
      if k = pluginId then mergeSettings currentPluginState updatedPartialState
      else st.pluginStates k }

/-- The mapping key `` `${deviceId}-${cc}` `` of `handleMidiMessage`. -/
def mappingKey (deviceId : String) (cc : ℕ) : String :=
  deviceId ++ "-" ++ toString cc

/-- The scaled value `min + (value / 127) * (max - min)` of `handleMidiMessage`. -/
def scaledValue {K : Type} (m : MidiMapping K) (value : ℕ) : ℚ :=
  m.min + ((value : ℚ) / 127) * (m.max - m.min)

/-- Embedding of `handleMidiMessage`, `src/App.tsx` lines 112-141, restricted to
control-change messages (non-CC messages are discarded by the
`isControlChange` guard before any of this state is touched):
if a learn target is armed, record a mapping under the key and disarm;
otherwise look up the mapping for the key and, when found, apply the scaled
value through `handlePluginStateChange` with the source's updater
`prevState => ({...prevState, [paramName]: scaledValue})`. -/
def handleMidiMessage {K : Type} [DecidableEq K]
    (st : AppState K) (deviceId : String) (cc : ℕ) (value : ℕ) : AppState K :=
  let key := mappingKey deviceId cc
  match st.midiLearnTarget with
  | some t =>
      let newMapping : MidiMapping K := ⟨t.pluginKey, t.paramName, t.min, t.max⟩
      { st with
          midiMappings := fun k => if k = key then some newMapping else st.midiMappings k,
          midiLearnTarget := none }
  | none =>
      match st.midiMappings key with
      | some m =>
          handlePluginStateChange st m.pluginKey (.updater (fun prevState k =>
            if k = m.paramName then some (Value.num (scaledValue m value))
            else some (prevState k)))
      | none => st

/-- Embedding of `handleMidiLearnStart`, `src/App.tsx` lines 148-156: arming with the
currently armed (pluginKey, paramName) disarms (toggle-cancel); anything
else arms the single learn slot with the new target. -/
def handleMidiLearnStart {K : Type} [DecidableEq K]
    (st : AppState K) (pluginKey : K) (paramName : String) (mn mx : ℚ) : AppState K :=
  { st with midiLearnTarget :=
      match st.midiLearnTarget with
      | some prev =>
          if prev.pluginKey = pluginKey ∧ prev.paramName = paramName then none
          else some ⟨pluginKey, paramName, mn, mx⟩
      | none => some ⟨pluginKey, paramName, mn, mx⟩ }

/-- Embedding of `handleAddLink`, `src/App.tsx` lines 187-193: no-op when some link
already targets the same `to`; else append the new link. -/
def handleAddLink {K : Type} [DecidableEq K]
    (st : AppState K) (newLink : SidechainLink K) : AppState K :=
  if st.sidechainLinks.any (fun link => decide (link.toKey = newLink.toKey)) then st
  else { st with sidechainLinks := st.sidechainLinks ++ [newLink] }

/-- Embedding of `handleRemoveLink`, `src/App.tsx` lines 195-203: filter out the exact
matching edge, then — unconditionally on whether an edge was removed — if the
target plugin kind can be a sidechain target, clear its `sidechainActive`
settings flag through `handlePluginStateChange`.
`canBeSidechainTarget` abstracts `findPlugin(targetPluginKey).canBeSidechainTarget`
from `src/constants`, which is not among the sources; per the spec some plugin
kinds support being a sidechain target. -/
def handleRemoveLink {K : Type} [DecidableEq K] (canBeSidechainTarget : K → Bool)
    (st : AppState K) (linkToRemove : SidechainLink K) : AppState K :=
  let st1 := { st with sidechainLinks :=
      st.sidechainLinks.filter (fun link =>
        !(decide (link.fromKey = linkToRemove.fromKey ∧ link.toKey = linkToRemove.toKey))) }
  if canBeSidechainTarget linkToRemove.toKey then
    handlePluginStateChange st1 linkToRemove.toKey
      (.lit (fun k => if k = "sidechainActive" then some (Value.bool false) else none))
  else st1

/-- Embedding of `handleLoadPreset`, `src/App.tsx` lines 172-178: find the preset by
name; when found, replace the whole settings mapping; else do nothing. -/
def handleLoadPreset {K : Type} [DecidableEq K]
    (st : AppState K) (name : String) : AppState K :=
  match st.presets.find? (fun p => decide (p.1 = name)) with
  | some preset => { st with pluginStates := preset.2 }
  | none => st

/-- A sidechain routing operation, for stating the fan-in invariant over
arbitrary operation sequences. -/
inductive SidechainOp (K : Type) where
  | add (l : SidechainLink K)
  | remove (l : SidechainLink K)

/-- Apply a sequence of sidechain routing operations through the
`src/App.tsx` handlers. -/
def applySidechainOps {K : Type} [DecidableEq K] (canBeSidechainTarget : K → Bool)
    (st : AppState K) : List (SidechainOp K) → AppState K
  | [] => st
  | op :: ops =>
      let st' := match op with
        | .add l => handleAddLink st l
        | .remove l => handleRemoveLink canBeSidechainTarget st l
      applySidechainOps canBeSidechainTarget st' ops

/-- At most one link targets any given `to` endpoint. -/
def linkInvariant {K : Type} (links : List (SidechainLink K)) : Prop :=
  links.Pairwise (fun a b => a.toKey ≠ b.toKey)

/-! ## The MixxVerb visualizer bridge -/

/-- The MixxVerb settings fields destructured by
`MixxVerbVstBridge.dspProcess` and the `MixxVerb` component. -/
structure MixxVerbSettings where
  size : ℚ
  predelay : ℚ
  mix : ℚ
  output : ℚ
deriving DecidableEq

/-- The simulated per-tick audio signal: a time, a level and a
transient-detected flag (fields read by `dspProcess`). -/
structure AudioSignal where
  time : ℚ
  level : ℚ
  transients : Bool
deriving DecidableEq

/-- Global settings fields read by the bridge:
`animationIntensity` (0-100) and the `visualizerComplexity` tier. -/
structure GlobalSettings where
  animationIntensity : ℚ
  visualizerComplexity : String
deriving DecidableEq

/-- Modelled from the spec: `mapRange` of `src/lib/utils.ts` is not among
the sources; the spec documents it as the linear range mapping (for
animation intensity, 0-100 onto 1.0-0.25). -/
def mapRange (value inMin inMax outMin outMax : ℚ) : ℚ :=
  outMin + ((value - inMin) / (inMax - inMin)) * (outMax - outMin)

/-- The mood-to-hue lookup of `dspProcess` (`moodHueMap`, default 195). -/
def moodHue (mood : String) : ℚ :=
  if mood = "Warm" then 40
  else if mood = "Bright" then 190
  else if mood = "Dark" then 270
  else if mood = "Energetic" then 320
  else if mood = "Neutral" then 195
  else 195

/-- The JS `Math.round` on a (nonnegative-in-practice) number. -/
def jsRound (q : ℚ) : ℤ := ⌊q + 1 / 2⌋

/-- A particle of the MixxVerb bridge (the `color` string is built exactly
as in the source's template literal). -/
structure Particle where
  id : ℕ
  x : ℚ
  y : ℚ
  z : ℚ
  opacity : ℚ
  size : ℚ
  spawnTime : ℚ
  life : ℚ
  color : String
deriving DecidableEq

/-- A scheduled (not yet fired) particle-burst callback: the values the
`setTimeout` closure in `dspProcess` captures at scheduling time, plus the
moment and delay of the schedule.  The source keeps no handle to this
timeout (only `pulseTimeout` has a handle), so nothing ever clears it. -/
structure ScheduledBurst where
  scheduledAt : ℚ
  delay : ℚ
  normalizedMix : ℚ
  gs : GlobalSettings
  baseHue : ℚ
  size : ℚ
deriving DecidableEq

/-- The private mutable state of `MixxVerbVstBridge`, plus the explicit
list of pending scheduled burst callbacks (the in-flight `setTimeout`s) and
a flag for the pending pulse timeout (whose handle `pulseTimeout` the
source does keep and clear). -/
structure BridgeState where
  particles : List Particle
  particleIdCounter : ℕ
  isPulsing : Bool
  pulseTimeoutPending : Bool
  lastTransientTime : ℚ
  pendingBursts : List ScheduledBurst
deriving DecidableEq

/-- The render snapshot `VerbVisualizerData` returned by `dspProcess`. -/
structure VerbVisualizerData where
  particles : List Particle
  isPulsing : Bool
deriving DecidableEq

/-- The particle count of a burst at fire time:
`(complexity === 'low' ? 10 : 20) + Math.round(normalizedMix * (complexity === 'low' ? 30 : 60))`,
as a length for `Array.from({length: n})` (negative lengths give empty). -/
def burstCount (gs : GlobalSettings) (normalizedMix : ℚ) : ℕ :=
  (((if gs.visualizerComplexity = "low" then 10 else 20) : ℤ)
    + jsRound (normalizedMix * (if gs.visualizerComplexity = "low" then 30 else 60))).toNat

/-- Create the particles of one burst, consuming five `Math.random()` draws
per particle from the stream `rnd` and threading `particleIdCounter`
(post-incremented before each `id` read, as in the source). -/
def mkParticles (b : ScheduledBurst) (rnd : ℕ → ℚ) :
    ℕ → ℕ → List Particle × ℕ
  | 0, counter => ([], counter)
  | n + 1, counter =>
      let variation := rnd 0 * 60 - 30
      let p : Particle :=
        { id := counter + 1
          x := (rnd 1 - 1 / 2) * (1 / 10)
          y := (rnd 2 - 1 / 2) * (1 / 10)
          z := 0
          opacity := 1 / 2 + rnd 3 * (1 / 2)
          size := 1 + rnd 4 * 3
          spawnTime := b.scheduledAt
          life := 1 / 2 + (b.size / 100) * (3 / 2)
          color := "hsla(" ++ toString (b.baseHue + variation) ++ ", 100%, 60%, 1)" }
      let rest := mkParticles b (fun k => rnd (k + 5)) n (counter + 1)
      (p :: rest.1, rest.2)

/-- Fire a scheduled burst callback: build the particles, push them, and
cap the list at 300 by `splice(0, length - 300)` (dropping the oldest from
the front) whenever the pushed length exceeds 300. -/
def fireBurst (b : ScheduledBurst) (rnd : ℕ → ℚ) (st : BridgeState) : BridgeState :=
  let count := burstCount b.gs b.normalizedMix
  let made := mkParticles b rnd count st.particleIdCounter
  let all := st.particles ++ made.1
  { st with
      particles := if 300 < all.length then all.drop (all.length - 300) else all
      particleIdCounter := made.2
      pendingBursts := st.pendingBursts.erase b }

/-- The per-tick update of one live particle in `dspProcess`, consuming
three `Math.random()` draws: advance depth by `depthSpeed`, drift x and y,
and fade opacity by the remaining fractional life. -/
def advanceParticle (depthSpeed : ℚ) (rnd : ℕ → ℚ) (p : Particle) : Particle :=
  let newZ := p.z + depthSpeed
  let lifeLeft := 1 - newZ / p.life
  { p with
      z := newZ
      x := p.x + (rnd 0 - 1 / 2) * (1 / 100)
      y := p.y + (rnd 1 - 1 / 2) * (1 / 100)
      opacity := (1 / 2 + rnd 2 * (1 / 2)) * lifeLeft }

/-- The `this.particles.map(...)` pass of `dspProcess`. -/
def advanceAll (depthSpeed : ℚ) (rnd : ℕ → ℚ) : List Particle → List Particle
  | [] => []
  | p :: ps =>
      advanceParticle depthSpeed rnd p :: advanceAll depthSpeed (fun k => rnd (k + 3)) ps

/-- The `.filter(p => p.z < p.life && p.opacity > 0.01)` predicate. -/
def keepParticle (p : Particle) : Bool :=
  decide (p.z < p.life ∧ 1 / 100 < p.opacity)

/-- The whole map-then-filter particle update pass of `dspProcess`. -/
def advanceParticles (depthSpeed : ℚ) (rnd : ℕ → ℚ) (ps : List Particle) : List Particle :=
  (advanceAll depthSpeed rnd ps).filter keepParticle

/-- The per-frame depth speed `0.005 * mapRange(animationIntensity, 0, 100, 1, 0.25)`. -/
def depthSpeed (gs : GlobalSettings) : ℚ :=
  (5 / 1000) * mapRange gs.animationIntensity 0 100 1 (1 / 4)

/-- Embedding of `MixxVerbVstBridge.dspProcess` of
`src/src/components/plugins/MixxVerb.tsx` (lines 41-112), one frame:
on a transient past the 0.1s debounce, remember the transient time and —
when `mix / 100 > 0.01` — set the pulse flag, replace the pending pulse
timeout, and schedule (never cancelling any previously scheduled burst) a
delayed particle burst capturing the current mix, global settings, hue and
size; then advance and filter the live particles and return the snapshot.
The scheduled burst fires later via `fireBurst`, not in this frame. -/
def dspProcess (settings : MixxVerbSettings) (gs : GlobalSettings) (mood : String)
    (audioSignal : AudioSignal) (rnd : ℕ → ℚ) (st : BridgeState) :
    BridgeState × VerbVisualizerData :=
  let now := audioSignal.time
  let animationSpeedMultiplier := mapRange gs.animationIntensity 0 100 1 (1 / 4)
  let d := (5 / 1000) * animationSpeedMultiplier
  let baseHue := moodHue mood
  let st1 :=
    if audioSignal.transients ∧ st.lastTransientTime + 1 / 10 < now then
      let st' := { st with lastTransientTime := now }
      let normalizedMix := settings.mix / 100
      if 1 / 100 < normalizedMix then
        { st' with
            isPulsing := true
            pulseTimeoutPending := true
            pendingBursts := st'.pendingBursts ++
              [⟨now, settings.predelay, normalizedMix, gs, baseHue, settings.size⟩] }
      else st'
    else st
  let newParticles := advanceParticles d rnd st1.particles
  let st2 := { st1 with particles := newParticles }
  (st2, { particles := newParticles, isPulsing := st2.isPulsing })

/-- Iterate the per-frame particle update (no transients arriving), with a
fresh random stream per frame. -/
def iterAdvance (d : ℚ) (frameRnd : ℕ → ℕ → ℚ) : ℕ → List Particle → List Particle
  | 0, ps => ps
  | n + 1, ps => iterAdvance d (fun k => frameRnd (k + 1)) n (advanceParticles d (frameRnd 0) ps)

/-! ## Concrete states for witnesses and counterexamples -/

/-- All-zero settings object. -/
def settingsZero : Settings := fun _ => Value.num 0

/-- A base session state over `Bool` as the plugin-key type. -/
def stBase : AppState Bool :=
  { pluginStates := fun _ => settingsZero
    midiMappings := fun _ => none
    midiLearnTarget := none
    sidechainLinks := []
    presets := [] }

/-- A mapping for plugin `true`'s `mix` parameter over range 0-100. -/
def mappingMix : MidiMapping Bool := ⟨true, "mix", 0, 100⟩

/-- Session state with `mappingMix` recorded under key `dev1-10`. -/
def stMapped : AppState Bool :=
  { stBase with midiMappings := fun k => if k = "dev1-10" then some mappingMix else none }

/-- Session state where plugin `true` is sidechain-active and is targeted
by the link `false → true`. -/
def stLinked : AppState Bool :=
  { stBase with
      pluginStates := fun k f =>
        if k = true ∧ f = "sidechainActive" then Value.bool true else Value.num 0
      sidechainLinks := [⟨false, true⟩] }

/-- Session state with an armed learn target for plugin `true`'s `mix`. -/
def stArmed : AppState Bool :=
  { stBase with midiLearnTarget := some ⟨true, "mix", 0, 100⟩ }

/-- The initial private state of a freshly constructed bridge. -/
def initBridge : BridgeState :=
  { particles := []
    particleIdCounter := 0
    isPulsing := false
    pulseTimeoutPending := false
    lastTransientTime := 0
    pendingBursts := [] }

/-- Global settings at the low complexity tier, intensity 50. -/
def gsLow : GlobalSettings := { animationIntensity := 50, visualizerComplexity := "low" }

/-- MixxVerb settings with mix = 1 (normalized mix exactly at threshold). -/
def settingsMix1 : MixxVerbSettings := { size := 50, predelay := 100, mix := 1, output := 50 }

/-- MixxVerb settings with mix = 50, predelay 500 ms. -/
def settingsMix50 : MixxVerbSettings := { size := 50, predelay := 500, mix := 50, output := 50 }

/-- A transient signal tick at t = 1. -/
def sigT1 : AudioSignal := { time := 1, level := 1, transients := true }

/-- A transient signal tick at t = 1.2 (past the 0.1s debounce after t = 1,
but before a 500 ms predelay from t = 1 could have elapsed). -/
def sigT2 : AudioSignal := { time := 6 / 5, level := 1, transients := true }

/-- The all-zero random stream. -/
def rndZero : ℕ → ℚ := fun _ => 0

/-- A sample live particle. -/
def pWit : Particle :=
  { id := 1, x := 0, y := 0, z := 0, opacity := 1, size := 1, spawnTime := 0,
    life := 1, color := "hsla(195, 100%, 60%, 1)" }

/-- The burst scheduled by the transient at t = 1 under `settingsMix50`. -/
def burst1 : ScheduledBurst :=
  { scheduledAt := 1, delay := 500, normalizedMix := 1 / 2, gs := gsLow,
    baseHue := 195, size := 50 }

/-- The bridge state after `dspProcess` sees the transient at t = 1. -/
def stAfter1 : BridgeState :=
  { particles := [], particleIdCounter := 0, isPulsing := true,
    pulseTimeoutPending := true, lastTransientTime := 1, pendingBursts := [burst1] }


/-! ## Helper lemmas -/

theorem pluginStateChange_other {K : Type} [DecidableEq K]
    (st : AppState K) (A : K) (u : SettingsUpdate) (B : K) (h : B ≠ A) :
    (handlePluginStateChange st A u).pluginStates B = st.pluginStates B := by
  simp [handlePluginStateChange, h]

/-! ## C1: parameter store shallow merge with isolation -/

/-- C1: every `handlePluginStateChange` call with a partial object or an
updater function makes plugin `A`'s settings the shallow merge of the
previous settings with the returned partial, leaves every other plugin
`B`'s settings unchanged, and over any sequence of updates to `A` plugin
`B`'s settings remain unchanged. -/
theorem updateState_shallow_merge_and_isolation {K : Type} [DecidableEq K]
    (st : AppState K) (A : K) (u : SettingsUpdate) (B : K) (hB : B ≠ A)
    (us : List SettingsUpdate) :
    (handlePluginStateChange st A u).pluginStates A
        = mergeSettings (st.pluginStates A) (evalUpdate u (st.pluginStates A))
    ∧ (handlePluginStateChange st A u).pluginStates B = st.pluginStates B
    ∧ (us.foldl (fun s v => handlePluginStateChange s A v) st).pluginStates B
        = st.pluginStates B := by
  refine ⟨by simp [handlePluginStateChange], pluginStateChange_other st A u B hB, ?_⟩
  induction us generalizing st with
  | nil => rfl
  | cons v vs ih =>
      rw [List.foldl_cons, ih (handlePluginStateChange st A v)]
      exact pluginStateChange_other st A v B hB

theorem updateState_shallow_merge_and_isolation_witness :
    (handlePluginStateChange stBase true (.lit (fun _ => none))).pluginStates true
        = mergeSettings (stBase.pluginStates true)
            (evalUpdate (.lit (fun _ => none)) (stBase.pluginStates true))
    ∧ (handlePluginStateChange stBase true (.lit (fun _ => none))).pluginStates false
        = stBase.pluginStates false
    ∧ (([] : List SettingsUpdate).foldl
          (fun s v => handlePluginStateChange s true v) stBase).pluginStates false
        = stBase.pluginStates false :=
  updateState_shallow_merge_and_isolation stBase true (.lit (fun _ => none)) false
    (by decide) []

/-! ## C2: control change while idle -/

/-- C2: a control-change message arriving while no learn target is armed
sets, when a mapping is recorded for its `deviceId-cc` key, the mapped
parameter to `min + (value/127) * (max - min)` while touching nothing
else; with the mapping `(reverb, mix, 0, 100)` and value 64 the scaled
value is `6400/127`, within 0.1 of 50.4; with no mapping recorded for the
key, the whole state is unchanged. -/
theorem midi_cc_idle_applies_mapping {K : Type} [DecidableEq K]
    (st : AppState K) (dev : String) (cc value : ℕ)
    (hidle : st.midiLearnTarget = none) (hval : value ≤ 127) (m : MidiMapping K) :
    (st.midiMappings (mappingKey dev cc) = some m →
      ((handleMidiMessage st dev cc value).pluginStates m.pluginKey m.paramName
          = Value.num (scaledValue m value)
       ∧ (∀ f, f ≠ m.paramName →
            (handleMidiMessage st dev cc value).pluginStates m.pluginKey f
              = st.pluginStates m.pluginKey f)
       ∧ (∀ B, B ≠ m.pluginKey →
            (handleMidiMessage st dev cc value).pluginStates B = st.pluginStates B)
       ∧ (handleMidiMessage st dev cc value).midiMappings = st.midiMappings
       ∧ (handleMidiMessage st dev cc value).midiLearnTarget = none))
    ∧ (st.midiMappings (mappingKey dev cc) = none →
        handleMidiMessage st dev cc value = st)
    ∧ scaledValue (⟨m.pluginKey, m.paramName, 0, 100⟩ : MidiMapping K) 64 = 6400 / 127
    ∧ |(6400 : ℚ) / 127 - 504 / 10| < 1 / 10 := by
  refine ⟨?_, ?_, ?_, ?_⟩
  · intro hm
    have happly : handleMidiMessage st dev cc value
        = handlePluginStateChange st m.pluginKey (.updater (fun prevState k =>
            if k = m.paramName then some (Value.num (scaledValue m value))
            else some (prevState k))) := by
      simp [handleMidiMessage, hidle, hm]
    refine ⟨?_, ?_, ?_, ?_, ?_⟩
    · rw [happly]; simp [handlePluginStateChange, mergeSettings, evalUpdate]
    · intro f hf
      rw [happly]; simp [handlePluginStateChange, mergeSettings, evalUpdate, hf]
    · intro B hBne
      rw [happly]; exact pluginStateChange_other st m.pluginKey _ B hBne
    · rw [happly]; rfl
    · rw [happly]; exact hidle
  · intro hm
    simp [handleMidiMessage, hidle, hm]
  · simp [scaledValue]; norm_num
  · rw [abs_lt]; constructor <;> norm_num

/-- Witness for C2: with mapping `(true, mix, 0, 100)` under key
`dev1-10`, value 64 yields mix = 6400/127. -/
theorem midi_cc_idle_applies_mapping_witness :
    (handleMidiMessage stMapped ("dev1") 10 64).pluginStates true ("mix")
      = Value.num (6400 / 127) := by
  have h := (midi_cc_idle_applies_mapping stMapped ("dev1") 10 64 rfl (by decide)
    mappingMix).1 (by decide)
  rw [show (6400 / 127 : ℚ) = scaledValue mappingMix 64 by norm_num [scaledValue, mappingMix]]
  exact h.1

/-! ## C3: learn capture consumes the message -/

/-- C3: a control-change message arriving while a learn target is armed
records exactly one mapping under the `deviceId-cc` key (replacing any
mapping previously stored there, all other keys unchanged), returns the
learn state machine to idle, and leaves every plugin's settings and the
link list unchanged — the captured message is not also applied. -/
theorem midi_learn_capture {K : Type} [DecidableEq K]
    (st : AppState K) (t : LearnTarget K) (dev : String) (cc value : ℕ)
    (h : st.midiLearnTarget = some t) :
    (handleMidiMessage st dev cc value).midiMappings (mappingKey dev cc)
        = some ⟨t.pluginKey, t.paramName, t.min, t.max⟩
    ∧ (∀ k, k ≠ mappingKey dev cc →
        (handleMidiMessage st dev cc value).midiMappings k = st.midiMappings k)
    ∧ (handleMidiMessage st dev cc value).midiLearnTarget = none
    ∧ (handleMidiMessage st dev cc value).pluginStates = st.pluginStates
    ∧ (handleMidiMessage st dev cc value).sidechainLinks = st.sidechainLinks := by
  refine ⟨by simp [handleMidiMessage, h], ?_, by simp [handleMidiMessage, h],
    by simp [handleMidiMessage, h], by simp [handleMidiMessage, h]⟩
  intro k hk
  simp [handleMidiMessage, h, hk]

/-- Witness for C3: capturing with the armed target `(true, mix, 0, 100)`
records that mapping, disarms, and leaves settings untouched. -/
theorem midi_learn_capture_witness :
    (handleMidiMessage stArmed ("dev1") 10 64).midiMappings (mappingKey ("dev1") 10)
        = some ⟨true, "mix", 0, 100⟩
    ∧ (handleMidiMessage stArmed ("dev1") 10 64).midiLearnTarget = none
    ∧ (handleMidiMessage stArmed ("dev1") 10 64).pluginStates = stArmed.pluginStates := by
  have h := midi_learn_capture stArmed ⟨true, "mix", 0, 100⟩ ("dev1") 10 64 rfl
  exact ⟨h.1, h.2.2.1, h.2.2.2.1⟩

/-! ## C4: learn toggle-cancel and single slot -/

/-- C4: with a target armed, calling `handleMidiLearnStart` with the same
(pluginKey, paramName) disarms without creating any mapping; calling it
with a different pair replaces the single armed slot with the new target;
mappings, plugin settings and links are untouched either way. -/
theorem midi_learn_toggle_single_slot {K : Type} [DecidableEq K]
    (st : AppState K) (t : LearnTarget K) (h : st.midiLearnTarget = some t)
    (pk : K) (pn : String) (mn mx : ℚ) :
    (t.pluginKey = pk → t.paramName = pn →
        (handleMidiLearnStart st pk pn mn mx).midiLearnTarget = none)
    ∧ (¬(t.pluginKey = pk ∧ t.paramName = pn) →
        (handleMidiLearnStart st pk pn mn mx).midiLearnTarget
          = some ⟨pk, pn, mn, mx⟩)
    ∧ (handleMidiLearnStart st pk pn mn mx).midiMappings = st.midiMappings
    ∧ (handleMidiLearnStart st pk pn mn mx).pluginStates = st.pluginStates
    ∧ (handleMidiLearnStart st pk pn mn mx).sidechainLinks = st.sidechainLinks := by
  refine ⟨?_, ?_, rfl, rfl, rfl⟩
  · intro h1 h2
    simp [handleMidiLearnStart, h, h1, h2]
  · intro hne
    simp [handleMidiLearnStart, h, hne]

/-- Witness for C4: re-arming the armed `(true, mix)` target disarms and
creates no mapping; arming `(false, mix)` instead replaces the slot. -/
theorem midi_learn_toggle_single_slot_witness :
    (handleMidiLearnStart stArmed true ("mix") 0 100).midiLearnTarget = none
    ∧ (handleMidiLearnStart stArmed true ("mix") 0 100).midiMappings = stArmed.midiMappings
    ∧ (handleMidiLearnStart stArmed false ("mix") 0 100).midiLearnTarget
        = some ⟨false, "mix", 0, 100⟩ := by
  have h1 := midi_learn_toggle_single_slot stArmed ⟨true, "mix", 0, 100⟩ rfl true ("mix") 0 100
  have h2 := midi_learn_toggle_single_slot stArmed ⟨true, "mix", 0, 100⟩ rfl false ("mix") 0 100
  exact ⟨h1.1 rfl rfl, h1.2.2.1, h2.2.1 (by decide)⟩

/-! ## C5: sidechain fan-in invariant -/

theorem handleAddLink_links_invariant {K : Type} [DecidableEq K]
    (st : AppState K) (l : SidechainLink K) (h : linkInvariant st.sidechainLinks) :
    linkInvariant (handleAddLink st l).sidechainLinks := by
  unfold handleAddLink
  split
  · exact h
  · rename_i hany
    simp only [List.any_eq_true, decide_eq_true_eq, not_exists, not_and] at hany
    unfold linkInvariant
    rw [List.pairwise_append]
    refine ⟨h, List.pairwise_singleton _ _, ?_⟩
    intro a ha b hb
    simp only [List.mem_singleton] at hb
    subst hb
    exact fun he => hany a ha he

theorem handleRemoveLink_links_invariant {K : Type} [DecidableEq K]
    (canT : K → Bool) (st : AppState K) (r : SidechainLink K)
    (h : linkInvariant st.sidechainLinks) :
    linkInvariant (handleRemoveLink canT st r).sidechainLinks := by
  unfold handleRemoveLink
  have hsub : linkInvariant (st.sidechainLinks.filter (fun link =>
      !(decide (link.fromKey = r.fromKey ∧ link.toKey = r.toKey)))) :=
    List.Pairwise.sublist (List.filter_sublist _) h
  split
  · exact hsub
  · exact hsub

theorem applySidechainOps_invariant {K : Type} [DecidableEq K]
    (canT : K → Bool) (ops : List (SidechainOp K)) (st : AppState K)
    (h : linkInvariant st.sidechainLinks) :
    linkInvariant (applySidechainOps canT st ops).sidechainLinks := by
  induction ops generalizing st with
  | nil => exact h
  | cons op ops ih =>
      cases op with
      | add l => exact ih (handleAddLink st l) (handleAddLink_links_invariant st l h)
      | remove l =>
          exact ih (handleRemoveLink canT st l) (handleRemoveLink_links_invariant canT st l h)

/-- C5: starting from any state satisfying the fan-in invariant (at most
one link targets any given `to`), every sequence of `handleAddLink` /
`handleRemoveLink` operations preserves it; `handleAddLink` is a complete
no-op when some link already targets the same `to`; and adding `A→C` then
`B→C` to an empty link list leaves only `A→C`. -/
theorem sidechain_at_most_one_incoming {K : Type} [DecidableEq K]
    (canT : K → Bool) (st : AppState K) (ops : List (SidechainOp K))
    (h : linkInvariant st.sidechainLinks) (A B C : K) (l : SidechainLink K) :
    linkInvariant (applySidechainOps canT st ops).sidechainLinks
    ∧ ((∃ e ∈ st.sidechainLinks, e.toKey = l.toKey) → handleAddLink st l = st)
    ∧ ((∀ e ∈ st.sidechainLinks, e.toKey ≠ l.toKey) →
        (handleAddLink st l).sidechainLinks = st.sidechainLinks ++ [l])
    ∧ (st.sidechainLinks = [] →
        (handleAddLink (handleAddLink st ⟨A, C⟩) ⟨B, C⟩).sidechainLinks
          = [⟨A, C⟩]) := by
  refine ⟨applySidechainOps_invariant canT ops st h, ?_, ?_, ?_⟩
  · rintro ⟨e, he, hto⟩
    unfold handleAddLink
    rw [if_pos]
    exact List.any_eq_true.mpr ⟨e, he, by simp [hto]⟩
  · intro hnone
    unfold handleAddLink
    rw [if_neg (by
      simp only [List.any_eq_true, decide_eq_true_eq, not_exists, not_and]
      exact hnone)]
  · intro hnil
    have h1 : handleAddLink st ⟨A, C⟩
        = { st with sidechainLinks := st.sidechainLinks ++ [⟨A, C⟩] } := by
      unfold handleAddLink
      rw [if_neg]
      simp [hnil]
    rw [h1]
    unfold handleAddLink
    rw [if_pos]
    · simp [hnil]
    · simp

theorem sidechain_at_most_one_incoming_witness :
    linkInvariant (applySidechainOps (fun _ => true) stBase
        [.add ⟨false, true⟩, .add ⟨true, true⟩]).sidechainLinks
    ∧ ((∃ e ∈ stBase.sidechainLinks, e.toKey = (⟨true, true⟩ : SidechainLink Bool).toKey) →
        handleAddLink stBase ⟨true, true⟩ = stBase)
    ∧ ((∀ e ∈ stBase.sidechainLinks, e.toKey ≠ (⟨true, true⟩ : SidechainLink Bool).toKey) →
        (handleAddLink stBase ⟨true, true⟩).sidechainLinks
          = stBase.sidechainLinks ++ [⟨true, true⟩])
    ∧ (stBase.sidechainLinks = [] →
        (handleAddLink (handleAddLink stBase ⟨false, true⟩) ⟨true, true⟩).sidechainLinks
          = [⟨false, true⟩]) :=
  sidechain_at_most_one_incoming (fun _ => true) stBase
    [.add ⟨false, true⟩, .add ⟨true, true⟩] (List.Pairwise.nil) false true true
    ⟨true, true⟩

/-! ## C6: failure paths -/

/-- C6 (amended): a control-change message with no recorded mapping, a
load of a missing preset name, and an `addLink` to an already-linked
target each leave the whole session state exactly as it was; a
`removeLink` with no matching edge leaves the links, mappings and learn
slot unchanged and is a complete no-op when the target plugin kind cannot
be a sidechain target, but when the target can be a sidechain target it
still rewrites that plugin's `sidechainActive` flag to `false` (all other
plugins and fields untouched). -/
theorem failure_paths_degrade_to_noop {K : Type} [DecidableEq K]
    (canT : K → Bool) (st : AppState K) (dev : String) (cc value : ℕ) (name : String)
    (l r : SidechainLink K)
    (h1 : st.midiLearnTarget = none)
    (h2 : st.midiMappings (mappingKey dev cc) = none)
    (h3 : st.presets.find? (fun p => decide (p.1 = name)) = none)
    (h4 : ∃ e ∈ st.sidechainLinks, e.toKey = l.toKey)
    (h5 : ∀ e ∈ st.sidechainLinks, ¬(e.fromKey = r.fromKey ∧ e.toKey = r.toKey)) :
    handleMidiMessage st dev cc value = st
    ∧ handleLoadPreset st name = st
    ∧ handleAddLink st l = st
    ∧ (handleRemoveLink canT st r).sidechainLinks = st.sidechainLinks
    ∧ (handleRemoveLink canT st r).midiMappings = st.midiMappings
    ∧ (handleRemoveLink canT st r).midiLearnTarget = st.midiLearnTarget
    ∧ (canT r.toKey = false → handleRemoveLink canT st r = st)
    ∧ (canT r.toKey = true →
        ((∀ B, B ≠ r.toKey →
            (handleRemoveLink canT st r).pluginStates B = st.pluginStates B)
         ∧ (∀ f, f ≠ "sidechainActive" →
             (handleRemoveLink canT st r).pluginStates r.toKey f
               = st.pluginStates r.toKey f)
         ∧ (handleRemoveLink canT st r).pluginStates r.toKey ("sidechainActive")
             = Value.bool false)) := by
  have hfilter : st.sidechainLinks.filter (fun link =>
      !(decide (link.fromKey = r.fromKey ∧ link.toKey = r.toKey))) = st.sidechainLinks := by
    rw [List.filter_eq_self]
    intro a ha
    simp only [Bool.not_eq_true', decide_eq_false_iff_not]
    exact h5 a ha
  have hrem : handleRemoveLink canT st r
      = if canT r.toKey then
          handlePluginStateChange st r.toKey
            (.lit (fun k => if k = "sidechainActive" then some (Value.bool false) else none))
        else st := by
    unfold handleRemoveLink
    rw [hfilter]
  refine ⟨by simp [handleMidiMessage, h1, h2], by simp [handleLoadPreset, h3], ?_, ?_, ?_, ?_, ?_, ?_⟩
  · obtain ⟨e, he, hto⟩ := h4
    unfold handleAddLink
    rw [if_pos]
    exact List.any_eq_true.mpr ⟨e, he, by simp [hto]⟩
  · rw [hrem]
    split
    · rfl
    · rfl
  · rw [hrem]
    split
    · rfl
    · rfl
  · rw [hrem]
    split
    · rfl
    · rfl
  · intro hc
    rw [hrem, if_neg]
    simp [hc]
  · intro hc
    rw [hrem, if_pos (by simp [hc])]
    refine ⟨?_, ?_, ?_⟩
    · intro B hB
      exact pluginStateChange_other st r.toKey _ B hB
    · intro f hf
      simp [handlePluginStateChange, mergeSettings, evalUpdate, hf]
    · simp [handlePluginStateChange, mergeSettings, evalUpdate]

theorem failure_paths_degrade_to_noop_witness :
    handleMidiMessage stLinked ("dev1") 10 64 = stLinked
    ∧ handleLoadPreset stLinked ("P1") = stLinked
    ∧ handleAddLink stLinked ⟨true, true⟩ = stLinked
    ∧ (handleRemoveLink (fun _ => false) stLinked ⟨true, true⟩).sidechainLinks
        = stLinked.sidechainLinks
    ∧ (handleRemoveLink (fun _ => false) stLinked ⟨true, true⟩ = stLinked) := by
  have h := failure_paths_degrade_to_noop (fun _ => false) stLinked ("dev1") 10 64 ("P1")
    ⟨true, true⟩ ⟨true, true⟩ rfl (by decide) rfl
    ⟨⟨false, true⟩, by decide, by decide⟩ (by decide)
  exact ⟨h.1, h.2.1, h.2.2.1, h.2.2.2.1, h.2.2.2.2.2.2.1 rfl⟩

/-- C6 counterexample: in `stLinked` the only link is `false→true`, so
removing `true→true` matches no edge; yet when plugin `true` can be a
sidechain target the removal still rewrites its `sidechainActive` flag
from `true` to `false` — the session state is not left exactly as it was. -/
theorem removeLink_missing_edge_not_noop :
    (stLinked.sidechainLinks.all
        (fun e => !(decide (e.fromKey = true ∧ e.toKey = true))) = true)
    ∧ stLinked.pluginStates true ("sidechainActive") = Value.bool true
    ∧ (handleRemoveLink (fun _ => true) stLinked ⟨true, true⟩).pluginStates
        true ("sidechainActive") = Value.bool false := by
  refine ⟨by decide, by decide, ?_⟩
  decide

/-! ## C7: burst scheduling and particle-count bounds -/

theorem mkParticles_length (b : ScheduledBurst) (rnd : ℕ → ℚ) (n counter : ℕ) :
    (mkParticles b rnd n counter).1.length = n := by
  induction n generalizing rnd counter with
  | zero => rfl
  | succ n ih => simp [mkParticles, ih]

theorem burstCount_low_bounds (gs : GlobalSettings) (nm : ℚ)
    (hlow : gs.visualizerComplexity = "low") (h1 : 1 / 100 < nm) (h2 : nm ≤ 1) :
    10 ≤ burstCount gs nm ∧ burstCount gs nm ≤ 40 := by
  unfold burstCount jsRound
  rw [if_pos hlow, if_pos hlow]
  have hr0 : (0 : ℤ) ≤ ⌊nm * 30 + 1 / 2⌋ := Int.floor_nonneg.mpr (by nlinarith)
  have hr30 : ⌊nm * 30 + 1 / 2⌋ < 31 := by
    rw [Int.floor_lt]
    push_cast
    nlinarith
  constructor <;> omega

/-- C7 (amended): when the bridge observes a transient, `mix = 0`
schedules no burst at all, every `mix` with `0 < mix ≤ 1` (normalized mix
at or below the `0.01` threshold) also schedules no burst at all, and for
`1 < mix ≤ 100` (so that `mix/100` exceeds the threshold) at complexity
tier `low` exactly one burst is scheduled and the number of particles it
creates when it fires lies between 10 and 40 inclusive. -/
theorem transient_burst_scheduling (settings : MixxVerbSettings) (gs : GlobalSettings)
    (mood : String) (sig : AudioSignal) (rnd : ℕ → ℚ) (st : BridgeState)
    (htrans : sig.transients = true) (hgap : st.lastTransientTime + 1 / 10 < sig.time) :
    (settings.mix = 0 →
      (dspProcess settings gs mood sig rnd st).1.pendingBursts = st.pendingBursts)
    ∧ (0 < settings.mix → settings.mix ≤ 1 →
      (dspProcess settings gs mood sig rnd st).1.pendingBursts = st.pendingBursts)
    ∧ (gs.visualizerComplexity = "low" → 1 < settings.mix → settings.mix ≤ 100 →
        ∃ b : ScheduledBurst,
          (dspProcess settings gs mood sig rnd st).1.pendingBursts
              = st.pendingBursts ++ [b]
          ∧ 10 ≤ burstCount b.gs b.normalizedMix
          ∧ burstCount b.gs b.normalizedMix ≤ 40
          ∧ ∀ (rnd2 : ℕ → ℚ) (c : ℕ),
              (mkParticles b rnd2 (burstCount b.gs b.normalizedMix) c).1.length
                = burstCount b.gs b.normalizedMix) := by
  refine ⟨?_, ?_, ?_⟩
  · intro hmix
    simp only [dspProcess]
    rw [if_pos (show (sig.transients = true) ∧ st.lastTransientTime + 1 / 10 < sig.time
      from ⟨htrans, hgap⟩)]
    rw [if_neg (show ¬((1 : ℚ) / 100 < settings.mix / 100) by rw [hmix]; norm_num)]
  · intro hpos hle1
    simp only [dspProcess]
    rw [if_pos (show (sig.transients = true) ∧ st.lastTransientTime + 1 / 10 < sig.time
      from ⟨htrans, hgap⟩)]
    rw [if_neg (show ¬((1 : ℚ) / 100 < settings.mix / 100) by
      rw [not_lt, div_le_div_iff₀ (by norm_num) (by norm_num)]
      linarith)]
  · intro hlow hm1 hm100
    have hthresh : (1 : ℚ) / 100 < settings.mix / 100 := by
      rw [div_lt_div_iff₀ (by norm_num) (by norm_num)]
      linarith
    have hle1 : settings.mix / 100 ≤ 1 :=
      div_le_one_of_le₀ hm100 (by norm_num)
    refine ⟨⟨sig.time, settings.predelay, settings.mix / 100, gs, moodHue mood,
      settings.size⟩, ?_, ?_, ?_, ?_⟩
    · simp only [dspProcess]
      rw [if_pos (show (sig.transients = true) ∧ st.lastTransientTime + 1 / 10 < sig.time
        from ⟨htrans, hgap⟩)]
      rw [if_pos hthresh]
    · exact (burstCount_low_bounds gs (settings.mix / 100) hlow hthresh hle1).1
    · exact (burstCount_low_bounds gs (settings.mix / 100) hlow hthresh hle1).2
    · intro rnd2 c
      exact mkParticles_length _ rnd2 _ c

theorem transient_burst_scheduling_witness :
    ((dspProcess { settingsMix50 with mix := 0 } gsLow ("Neutral") sigT1 rndZero
        initBridge).1.pendingBursts = initBridge.pendingBursts)
    ∧ ((dspProcess { settingsMix50 with mix := 1 / 2 } gsLow ("Neutral") sigT1 rndZero
        initBridge).1.pendingBursts = initBridge.pendingBursts)
    ∧ ∃ b : ScheduledBurst,
        (dspProcess settingsMix50 gsLow ("Neutral") sigT1 rndZero initBridge).1.pendingBursts
            = initBridge.pendingBursts ++ [b]
        ∧ 10 ≤ burstCount b.gs b.normalizedMix
        ∧ burstCount b.gs b.normalizedMix ≤ 40
        ∧ ∀ (rnd2 : ℕ → ℚ) (c : ℕ),
            (mkParticles b rnd2 (burstCount b.gs b.normalizedMix) c).1.length
              = burstCount b.gs b.normalizedMix := by
  refine ⟨?_, ?_, ?_⟩
  · exact (transient_burst_scheduling { settingsMix50 with mix := 0 } gsLow ("Neutral")
      sigT1 rndZero initBridge rfl (by norm_num [initBridge, sigT1])).1 rfl
  · exact (transient_burst_scheduling { settingsMix50 with mix := 1 / 2 } gsLow ("Neutral")
      sigT1 rndZero initBridge rfl (by norm_num [initBridge, sigT1])).2.1
      (by norm_num) (by norm_num)
  · exact (transient_burst_scheduling settingsMix50 gsLow ("Neutral") sigT1 rndZero
      initBridge rfl (by norm_num [initBridge, sigT1])).2.2 rfl (by norm_num [settingsMix50])
      (by norm_num [settingsMix50])

/-- C7 counterexample: `mix = 1` satisfies `0 < mix ≤ 100` at complexity
`low`, a transient is observed, yet no burst is scheduled at all — the
scheduled particle count for that transient is 0, not in [10, 40]. -/
theorem mix_one_schedules_no_burst :
    (0 < settingsMix1.mix ∧ settingsMix1.mix ≤ 100
      ∧ gsLow.visualizerComplexity = "low"
      ∧ sigT1.transients = true
      ∧ initBridge.lastTransientTime + 1 / 10 < sigT1.time)
    ∧ (dspProcess settingsMix1 gsLow ("Neutral") sigT1 rndZero
        initBridge).1.pendingBursts = [] := by
  refine ⟨⟨by norm_num [settingsMix1], by norm_num [settingsMix1], rfl, rfl,
    by norm_num [initBridge, sigT1]⟩, ?_⟩
  simp only [dspProcess]
  rw [if_pos (show (sigT1.transients = true)
      ∧ initBridge.lastTransientTime + 1 / 10 < sigT1.time
    from ⟨rfl, by norm_num [initBridge, sigT1]⟩)]
  rw [if_neg (show ¬((1 : ℚ) / 100 < settingsMix1.mix / 100) by
    norm_num [settingsMix1])]
  rfl

/-! ## C8: particle cap -/

/-- C8: after every particle-burst insertion by `fireBurst` the particle
list holds at most 300 particles, and it equals the pushed list with the
excess dropped from the front (the oldest particles), so the count stays
bounded regardless of transient rate. -/
theorem burst_insertion_caps_particles (b : ScheduledBurst) (rnd : ℕ → ℚ)
    (st : BridgeState) :
    (fireBurst b rnd st).particles.length ≤ 300
    ∧ (fireBurst b rnd st).particles
        = (st.particles ++ (mkParticles b rnd (burstCount b.gs b.normalizedMix)
            st.particleIdCounter).1).drop
          ((st.particles.length + burstCount b.gs b.normalizedMix) - 300) := by
  have hlen : (st.particles ++ (mkParticles b rnd (burstCount b.gs b.normalizedMix)
      st.particleIdCounter).1).length
      = st.particles.length + burstCount b.gs b.normalizedMix := by
    simp [mkParticles_length]
  simp only [fireBurst]
  split_ifs with h
  · constructor
    · simp only [List.length_drop]
      omega
    · rw [hlen]
  · rw [hlen] at h
    constructor
    · rw [hlen]
      omega
    · rw [Nat.sub_eq_zero_of_le (by omega), List.drop_zero]

/-! ## C9: particle advancement, removal and quiescence -/

theorem advanceAll_length (d : ℚ) (rnd : ℕ → ℚ) (ps : List Particle) :
    (advanceAll d rnd ps).length = ps.length := by
  induction ps generalizing rnd with
  | nil => rfl
  | cons p ps ih => simp [advanceAll, ih]

theorem mem_advanceAll (d : ℚ) (rnd : ℕ → ℚ) (ps : List Particle) (q : Particle)
    (h : q ∈ advanceAll d rnd ps) :
    ∃ p ∈ ps, q.z = p.z + d ∧ q.life = p.life := by
  induction ps generalizing rnd with
  | nil => cases h
  | cons p ps ih =>
      rcases List.mem_cons.mp h with h | h
      · exact ⟨p, List.mem_cons_self p ps, by rw [h]; rfl, by rw [h]; rfl⟩
      · obtain ⟨a, ha, hz, hl⟩ := ih _ h
        exact ⟨a, List.mem_cons_of_mem p ha, hz, hl⟩

theorem advanceAll_forward (d : ℚ) (rnd : ℕ → ℚ) (ps : List Particle) (p : Particle)
    (h : p ∈ ps) :
    ∃ q ∈ advanceAll d rnd ps, q.z = p.z + d ∧ q.life = p.life := by
  induction ps generalizing rnd with
  | nil => cases h
  | cons a as ih =>
      rcases List.mem_cons.mp h with h | h
      · subst h
        exact ⟨advanceParticle d rnd p, List.mem_cons_self _ _, rfl, rfl⟩
      · obtain ⟨q, hq, hz, hl⟩ := ih (fun k => rnd (k + 3)) h
        exact ⟨q, List.mem_cons_of_mem _ hq, hz, hl⟩

theorem filter_length_lt {α : Type} (l : List α) (p : α → Bool) (x : α)
    (hx : x ∈ l) (hpx : p x = false) : (l.filter p).length < l.length := by
  induction l with
  | nil => cases hx
  | cons a as ih =>
      rcases List.mem_cons.mp hx with h | h
      · subst h
        simp only [List.filter_cons, hpx, Bool.false_eq_true, if_false, List.length_cons]
        exact Nat.lt_succ_of_le (List.length_filter_le _ _)
      · cases hp : p a
        · simp only [List.filter_cons, hp, Bool.false_eq_true, if_false, List.length_cons]
          exact Nat.lt_succ_of_le (List.length_filter_le _ _)
        · simp only [List.filter_cons, hp, if_true, List.length_cons]
          exact Nat.succ_lt_succ (ih h)

theorem iterAdvance_mem_bound (d L : ℚ) (n : ℕ) (frameRnd : ℕ → ℕ → ℚ) (c : ℚ)
    (ps : List Particle) (hps : ∀ p ∈ ps, c ≤ p.z ∧ p.life ≤ L) :
    ∀ q ∈ iterAdvance d frameRnd n ps,
      c + (n : ℚ) * d ≤ q.z ∧ q.life ≤ L ∧ (0 < n → q.z < q.life) := by
  induction n generalizing frameRnd c ps with
  | zero =>
      intro q hq
      simp only [iterAdvance] at hq
      obtain ⟨h1, h2⟩ := hps q hq
      exact ⟨by push_cast; linarith, h2, fun h => absurd h (lt_irrefl 0)⟩
  | succ n ih =>
      intro q hq
      simp only [iterAdvance] at hq
      have hstep : ∀ r ∈ advanceParticles d (frameRnd 0) ps, c + d ≤ r.z ∧ r.life ≤ L := by
        intro r hr
        simp only [advanceParticles] at hr
        obtain ⟨a, ha, hz, hl⟩ := mem_advanceAll d (frameRnd 0) ps r (List.mem_filter.mp hr).1
        obtain ⟨h1, h2⟩ := hps a ha
        exact ⟨by rw [hz]; linarith, by rw [hl]; exact h2⟩
      rcases Nat.eq_zero_or_pos n with hn | hn
      · subst hn
        simp only [iterAdvance] at hq
        have hbound := hstep q hq
        simp only [advanceParticles] at hq
        have hkeep := (List.mem_filter.mp hq).2
        simp only [keepParticle, decide_eq_true_eq] at hkeep
        refine ⟨by push_cast; linarith [hbound.1], hbound.2, fun _ => hkeep.1⟩
      · have hres := ih (fun k => frameRnd (k + 1)) (c + d) _ hstep q hq
        refine ⟨?_, hres.2.1, fun _ => hres.2.2 hn⟩
        have h1 := hres.1
        push_cast at h1 ⊢
        linarith

/-- C9: with `animationIntensity` in [0, 100] the per-frame depth speed is
strictly positive and every advanced particle's depth grows by exactly that
speed; a particle survives the update pass exactly when its new depth is
still below its lifetime and its new opacity is still above the 0.01
visibility threshold; the update pass never lengthens the particle list,
strictly shortens it when some particle's depth crosses its lifetime, and
with no further transients iterating it long enough (depth gain at least
every lifetime bound) empties the list. -/
theorem particle_dynamics (gs : GlobalSettings)
    (h0 : 0 ≤ gs.animationIntensity) (h100 : gs.animationIntensity ≤ 100)
    (rnd : ℕ → ℚ) (ps : List Particle) (p q : Particle)
    (L : ℚ) (frameRnd : ℕ → ℕ → ℚ) (n : ℕ) :
    0 < depthSpeed gs
    ∧ (advanceParticle (depthSpeed gs) rnd p).z = p.z + depthSpeed gs
    ∧ (q ∈ advanceParticles (depthSpeed gs) rnd ps ↔
        (q ∈ advanceAll (depthSpeed gs) rnd ps
          ∧ ¬(q.life ≤ q.z ∨ q.opacity ≤ 1 / 100)))
    ∧ (advanceParticles (depthSpeed gs) rnd ps).length ≤ ps.length
    ∧ ((∃ r ∈ ps, r.life ≤ r.z + depthSpeed gs) →
        (advanceParticles (depthSpeed gs) rnd ps).length < ps.length)
    ∧ ((∀ r ∈ ps, 0 ≤ r.z ∧ r.life ≤ L) → 0 < n →
        L ≤ (n : ℚ) * depthSpeed gs →
        iterAdvance (depthSpeed gs) frameRnd n ps = []) := by
  have hd : 0 < depthSpeed gs := by
    have hdiv : gs.animationIntensity / 100 ≤ 1 := by
      rw [div_le_one (by norm_num)]
      exact h100
    unfold depthSpeed mapRange
    nlinarith [hdiv]
  refine ⟨hd, rfl, ?_, ?_, ?_, ?_⟩
  · constructor
    · intro hq
      simp only [advanceParticles] at hq
      have h1 := List.mem_filter.mp hq
      have h2 := h1.2
      simp only [keepParticle, decide_eq_true_eq] at h2
      refine ⟨h1.1, ?_⟩
      push_neg
      exact ⟨h2.1, h2.2⟩
    · rintro ⟨hmem, hcond⟩
      push_neg at hcond
      simp only [advanceParticles]
      refine List.mem_filter.mpr ⟨hmem, ?_⟩
      simp only [keepParticle, decide_eq_true_eq]
      exact ⟨hcond.1, hcond.2⟩
  · simp only [advanceParticles]
    calc ((advanceAll (depthSpeed gs) rnd ps).filter keepParticle).length
        ≤ (advanceAll (depthSpeed gs) rnd ps).length := List.length_filter_le _ _
      _ = ps.length := advanceAll_length _ _ _
  · rintro ⟨r, hr, hrl⟩
    obtain ⟨w, hw, hz, hl⟩ := advanceAll_forward (depthSpeed gs) rnd ps r hr
    have hwf : keepParticle w = false := by
      simp only [keepParticle, decide_eq_false_iff_not]
      rintro ⟨hlt, -⟩
      rw [hz, hl] at hlt
      linarith
    simp only [advanceParticles]
    rw [← advanceAll_length (depthSpeed gs) rnd ps]
    exact filter_length_lt _ _ w hw hwf
  · intro hps hn hL
    have hb := iterAdvance_mem_bound (depthSpeed gs) L n frameRnd 0 ps hps
    rw [List.eq_nil_iff_forall_not_mem]
    intro w hw
    obtain ⟨h1, h2, h3⟩ := hb w hw
    have h4 := h3 hn
    linarith

theorem particle_dynamics_witness :
    0 < depthSpeed gsLow
    ∧ (advanceParticle (depthSpeed gsLow) rndZero pWit).z = pWit.z + depthSpeed gsLow
    ∧ (pWit ∈ advanceParticles (depthSpeed gsLow) rndZero [] ↔
        (pWit ∈ advanceAll (depthSpeed gsLow) rndZero []
          ∧ ¬(pWit.life ≤ pWit.z ∨ pWit.opacity ≤ 1 / 100)))
    ∧ (advanceParticles (depthSpeed gsLow) rndZero []).length
        ≤ ([] : List Particle).length
    ∧ ((∃ r ∈ ([] : List Particle), r.life ≤ r.z + depthSpeed gsLow) →
        (advanceParticles (depthSpeed gsLow) rndZero []).length
          < ([] : List Particle).length)
    ∧ ((∀ r ∈ ([] : List Particle), 0 ≤ r.z ∧ r.life ≤ (2 : ℚ)) → 0 < 1 →
        (2 : ℚ) ≤ ((1 : ℕ) : ℚ) * depthSpeed gsLow →
        iterAdvance (depthSpeed gsLow) (fun _ _ => 0) 1 [] = []) :=
  particle_dynamics gsLow (by norm_num [gsLow]) (by norm_num [gsLow]) rndZero []
    pWit pWit 2 (fun _ _ => 0) 1

/-! ## C10: scheduled burst callbacks are never invalidated -/

/-- C10 (code bug): the bridge stores no handle for the delayed
particle-burst `setTimeout` (only the pulse timeout has one), so
`dspProcess` never invalidates a previously scheduled burst: every call
extends the pending-burst list; concretely, after a transient at t = 1
under a 500 ms predelay, a second transient at t = 1.2 — before the first
delay elapsed — leaves the stale t = 1 burst still pending alongside the
new one. -/
theorem scheduled_burst_never_cancelled :
    (∀ (settings : MixxVerbSettings) (gs : GlobalSettings) (mood : String)
        (sig : AudioSignal) (rnd : ℕ → ℚ) (st : BridgeState),
        ∃ t, st.pendingBursts ++ t
            = (dspProcess settings gs mood sig rnd st).1.pendingBursts)
    ∧ (dspProcess settingsMix50 gsLow ("Neutral") sigT1 rndZero
        initBridge).1.pendingBursts.length = 1
    ∧ (dspProcess settingsMix50 gsLow ("Neutral") sigT2 rndZero
        (dspProcess settingsMix50 gsLow ("Neutral") sigT1 rndZero
          initBridge).1).1.pendingBursts.length = 2
    ∧ (dspProcess settingsMix50 gsLow ("Neutral") sigT2 rndZero
        (dspProcess settingsMix50 gsLow ("Neutral") sigT1 rndZero
          initBridge).1).1.pendingBursts.head?.map (fun b => b.scheduledAt)
        = some 1 := by
  have hst1 : (dspProcess settingsMix50 gsLow ("Neutral") sigT1 rndZero initBridge).1
      = stAfter1 := by
    simp only [dspProcess]
    rw [if_pos (show (sigT1.transients = true)
        ∧ initBridge.lastTransientTime + 1 / 10 < sigT1.time
      from ⟨rfl, by norm_num [initBridge, sigT1]⟩)]
    rw [if_pos (show (1 : ℚ) / 100 < settingsMix50.mix / 100 by
      norm_num [settingsMix50])]
    simp only [stAfter1, burst1, initBridge, sigT1, settingsMix50, gsLow,
      advanceParticles, advanceAll, List.filter_nil, BridgeState.mk.injEq,
      ScheduledBurst.mk.injEq, moodHue, String.reduceEq]
    norm_num
  have hst2 : (dspProcess settingsMix50 gsLow ("Neutral") sigT2 rndZero
      stAfter1).1.pendingBursts
      = [burst1, ⟨sigT2.time, settingsMix50.predelay, settingsMix50.mix / 100, gsLow,
          moodHue ("Neutral"), settingsMix50.size⟩] := by
    simp only [dspProcess]
    rw [if_pos (show (sigT2.transients = true)
        ∧ stAfter1.lastTransientTime + 1 / 10 < sigT2.time
      from ⟨rfl, by norm_num [stAfter1, sigT2]⟩)]
    rw [if_pos (show (1 : ℚ) / 100 < settingsMix50.mix / 100 by
      norm_num [settingsMix50])]
    simp [stAfter1]
  refine ⟨?_, ?_, ?_, ?_⟩
  · intro settings gs mood sig rnd st
    simp only [dspProcess]
    split_ifs with h1 h2
    · exact ⟨_, rfl⟩
    · exact ⟨[], by simp⟩
    · exact ⟨[], by simp⟩
  · rw [hst1]
    rfl
  · rw [hst1, hst2]
    rfl
  · rw [hst1, hst2]
    rfl

end MixPlugins
